import Mathlib

/-!
Shallow embedding of `crates/bevy_window/src/raw_handle.rs`.

The file defines, in order:
* the opaque handle value types and the `HandleError` type from the
  `raw_window_handle` interface that the source imports;
* the `HasWindowHandle + HasDisplayHandle` capability set (`WindowTrait`);
* an immutable value-level model of `std::sync::Arc` (`Arc`), plus a
  separate reference-count state machine (`ArcState`) modelled from the
  spec for the lifetime/destruction claims;
* `WindowWrapper`, `RawHandleWrapper` and
  `ThreadLockedRawWindowHandleWrapper` with their operations, translated
  line by line from the source.
-/

namespace RawHandleSpec

/-- Opaque platform window-handle value (`raw_window_handle::WindowHandle`).
Only its identity matters to this core, so it is modelled as a wrapped
natural number. -/
structure WindowHandle where
  raw : Nat
deriving DecidableEq, Repr

/-- Opaque platform display-handle value (`raw_window_handle::DisplayHandle`). -/
structure DisplayHandle where
  raw : Nat
deriving DecidableEq, Repr

/-- `raw_window_handle::HandleError`: the underlying binding could not
produce a handle. The source treats it as opaque pass-through, so the
exact variants are immaterial; we model the two documented ones. -/
inductive HandleError where
  | notSupported : HandleError
  | unavailable : HandleError
deriving DecidableEq, Repr

/-- The capability set `HasWindowHandle + HasDisplayHandle` (source line 38:
`trait WindowTrait: HasWindowHandle + HasDisplayHandle`). A value of
`WindowTrait W` is the vtable of the erased `dyn WindowTrait` object: the
two fallible, read-only handle-producing operations of `W`. -/
structure WindowTrait (W : Type) where
  window_handle : W → Except HandleError WindowHandle
  display_handle : W → Except HandleError DisplayHandle

/-- Value-level model of `std::sync::Arc<W>`: an immutable shared reference
to a `W`. Cloning an `Arc` yields a reference to the same value, so at the
value level `clone` is the identity; the reference-count side effects are
modelled separately by `ArcState`. -/
structure Arc (W : Type) where
  value : W
deriving DecidableEq, Repr

/-- `Arc::new`. -/
def Arc.new (w : W) : Arc W := ⟨w⟩

/-- `Arc::clone`: returns a reference to the same value. -/
def Arc.clone (self : Arc W) : Arc W := self

/-- `WindowWrapper<W>` (source lines 16-19): a wrapper over a window that
extends its lifetime via a shared reference. -/
structure WindowWrapper (W : Type) where
  reference : Arc W
deriving DecidableEq, Repr

/-- `WindowWrapper::new` (source lines 23-27): wraps a window in a shared
reference. -/
def WindowWrapper.new (window : W) : WindowWrapper W :=
  { reference := Arc.new window }

/-- `Deref for WindowWrapper` (source lines 30-36): read-only access to the
contained window. -/
def WindowWrapper.deref (self : WindowWrapper W) : W :=
  self.reference.value

/-- `RawHandleWrapper` (source lines 46-49): holds `window: Arc<dyn
WindowTrait>`. The Rust trait object is a data pointer plus a vtable; the
embedding keeps the window type `W` as a parameter and stores the vtable
(`inst`) next to the shared reference, which is the same data. -/
structure RawHandleWrapper (W : Type) where
  inst : WindowTrait W
  window : Arc W

/-- `RawHandleWrapper::new` (source lines 59-65): clones the holder's
shared reference (type-erased) and stores it, returning `Ok`. -/
def RawHandleWrapper.new (inst : WindowTrait W) (window : WindowWrapper W) :
    Except HandleError (RawHandleWrapper W) :=
  Except.ok { inst := inst, window := Arc.clone window.reference }

/-- `#[derive(Clone)]` on `RawHandleWrapper` (source line 46): clones the
inner `Arc`. -/
def RawHandleWrapper.clone (self : RawHandleWrapper W) : RawHandleWrapper W :=
  { inst := self.inst, window := Arc.clone self.window }

/-- `ThreadLockedRawWindowHandleWrapper` (source line 94): a tuple struct
owning one `RawHandleWrapper`. In the source it can only be produced by
`RawHandleWrapper::get_handle`, the single explicitly marked operation of
the core. -/
structure ThreadLockedRawWindowHandleWrapper (W : Type) where
  raw : RawHandleWrapper W

/-- `RawHandleWrapper::get_handle` (source lines 73-75): returns
`ThreadLockedRawWindowHandleWrapper(self.clone())`. Total: it has no error
return and no failure branch; the thread-validity contract is documented,
not checked. -/
def RawHandleWrapper.get_handle (self : RawHandleWrapper W) :
    ThreadLockedRawWindowHandleWrapper W :=
  ⟨RawHandleWrapper.clone self⟩

/-- `HasWindowHandle for ThreadLockedRawWindowHandleWrapper` (source lines
96-106): delegates to `self.0.window.window_handle()`. -/
def ThreadLockedRawWindowHandleWrapper.window_handle
    (self : ThreadLockedRawWindowHandleWrapper W) :
    Except HandleError WindowHandle :=
  self.raw.inst.window_handle self.raw.window.value

/-- `HasDisplayHandle for ThreadLockedRawWindowHandleWrapper` (source lines
108-118): delegates to `self.0.window.display_handle()`. -/
def ThreadLockedRawWindowHandleWrapper.display_handle
    (self : ThreadLockedRawWindowHandleWrapper W) :
    Except HandleError DisplayHandle :=
  self.raw.inst.display_handle self.raw.window.value

/-- Modelled from the spec: the reference-counting behaviour of
`std::sync::Arc`, which the source relies on but which is not part of this
repository. The spec: cloning the shared reference increments a reference
count, dropping a clone decrements it, and the resource is destroyed
exactly when the count reaches zero, each increment/decrement being one
atomic step with the required happens-before ordering (so arbitrary
cross-thread interleavings are modelled as arbitrary sequences of atomic
steps). `strong` is the current reference count, `live` the resource while
it is alive, `drops` the number of times the destructor has run. -/
structure ArcState (W : Type) where
  strong : Nat
  live : Option W
  drops : Nat
deriving DecidableEq, Repr

/-- The operations of the core, as atomic steps on the shared reference
count. `clone` covers every operation that clones the `Arc`
(`RawHandleWrapper::new`, `RawHandleWrapper::clone`,
`RawHandleWrapper::get_handle`); `drop` drops one clone; the remaining
operations are read-only through a shared borrow and do not touch the
count. -/
inductive ArcOp where
  | clone : ArcOp
  | drop : ArcOp
  | deref : ArcOp
  | windowHandle : ArcOp
  | displayHandle : ArcOp
deriving DecidableEq, Repr

/-- One atomic step. Dropping the last clone destroys the resource. -/
def ArcState.step (s : ArcState W) : ArcOp → ArcState W
  | ArcOp.clone => { s with strong := s.strong + 1 }
  | ArcOp.drop =>
      if s.strong = 1 then { strong := 0, live := none, drops := s.drops + 1 }
      else { s with strong := s.strong - 1 }
  | _ => s

/-- Run a sequence of steps. -/
def ArcState.run (s : ArcState W) (ops : List ArcOp) : ArcState W :=
  ops.foldl ArcState.step s

/-- A sequence of operations is valid when every operation is performed by
a holder of a still-live clone: the count is positive at each step. -/
def ArcState.validRun : ArcState W → List ArcOp → Bool
  | _, [] => true
  | s, op :: rest => decide (0 < s.strong) && ArcState.validRun (s.step op) rest

/-- The state of a freshly created shared reference (`Arc::new`): one
clone, resource alive, destructor never run. -/
def ArcState.new (w : W) : ArcState W :=
  { strong := 1, live := some w, drops := 0 }

/-- The reachability invariant of the reference-count machine: either some
clone is still live, the resource is intact and the destructor has not
run, or every clone has been dropped, the resource is gone and the
destructor ran exactly once. -/
def ArcState.inv (w : W) (s : ArcState W) : Prop :=
  (0 < s.strong ∧ s.live = some w ∧ s.drops = 0) ∨
  (s.strong = 0 ∧ s.live = none ∧ s.drops = 1)

theorem ArcState.inv_step {W : Type} {w : W} {s : ArcState W} (op : ArcOp)
    (h : ArcState.inv w s) (hpos : 0 < s.strong) : ArcState.inv w (s.step op) := by
  rcases h with ⟨h1, h2, h3⟩ | ⟨h1, h2, h3⟩
  · cases op with
    | clone => exact Or.inl ⟨Nat.succ_pos _, h2, h3⟩
    | drop =>
        by_cases hone : s.strong = 1
        · exact Or.inr (by simp [ArcState.step, hone, h3])
        · refine Or.inl ?_
          have : 1 < s.strong := lt_of_le_of_ne h1 (fun h => hone h.symm)
          simp only [ArcState.step, hone, if_false]
          exact ⟨Nat.sub_pos_of_lt this, h2, h3⟩
    | deref => exact Or.inl ⟨h1, h2, h3⟩
    | windowHandle => exact Or.inl ⟨h1, h2, h3⟩
    | displayHandle => exact Or.inl ⟨h1, h2, h3⟩
  · omega

theorem ArcState.inv_run {W : Type} {w : W} {s : ArcState W} (ops : List ArcOp)
    (h : ArcState.inv w s) (hv : ArcState.validRun s ops = true) :
    ArcState.inv w (ArcState.run s ops) := by
  induction ops generalizing s with
  | nil => exact h
  | cons op rest ih =>
      simp only [ArcState.validRun, Bool.and_eq_true, decide_eq_true_eq] at hv
      exact ih (ArcState.inv_step op h hv.1) hv.2

theorem ArcState.inv_new {W : Type} (w : W) : ArcState.inv w (ArcState.new w) :=
  Or.inl ⟨Nat.one_pos, rfl, rfl⟩

/-- Steps other than `drop` never decrease the count, never destroy the
resource and never change its value. -/
theorem ArcState.step_no_drop {W : Type} {s : ArcState W} {op : ArcOp}
    (hop : op ≠ ArcOp.drop) :
    (s.step op).strong = s.strong ∨ (s.step op).strong = s.strong + 1 := by
  cases op with
  | clone => exact Or.inr rfl
  | drop => exact absurd rfl hop
  | deref => exact Or.inl rfl
  | windowHandle => exact Or.inl rfl
  | displayHandle => exact Or.inl rfl

theorem ArcState.step_preserves_live_no_drop {W : Type} {s : ArcState W}
    {op : ArcOp} (hop : op ≠ ArcOp.drop) :
    (s.step op).live = s.live ∧ (s.step op).drops = s.drops := by
  cases op with
  | clone => exact ⟨rfl, rfl⟩
  | drop => exact absurd rfl hop
  | deref => exact ⟨rfl, rfl⟩
  | windowHandle => exact ⟨rfl, rfl⟩
  | displayHandle => exact ⟨rfl, rfl⟩

theorem ArcState.run_no_drop {W : Type} {s : ArcState W} {ops : List ArcOp}
    (hops : ArcOp.drop ∉ ops) (hpos : 0 < s.strong) :
    (ArcState.run s ops).live = s.live ∧ (ArcState.run s ops).drops = s.drops ∧
      0 < (ArcState.run s ops).strong ∧ ArcState.validRun s ops = true := by
  induction ops generalizing s with
  | nil => exact ⟨rfl, rfl, hpos, rfl⟩
  | cons op rest ih =>
      have hop : op ≠ ArcOp.drop := fun h => hops (h ▸ List.mem_cons_self op rest)
      have hrest : ArcOp.drop ∉ rest := fun h => hops (List.mem_cons_of_mem _ h)
      have hpos2 : 0 < (s.step op).strong := by
        rcases @ArcState.step_no_drop W s op hop with h | h <;> omega
      obtain ⟨l1, d1⟩ := @ArcState.step_preserves_live_no_drop W s op hop
      obtain ⟨l2, d2, p2, v2⟩ := ih hrest hpos2
      refine ⟨?_, ?_, p2, ?_⟩
      · rw [ArcState.run] at l2 ⊢
        simp only [List.foldl_cons]
        rw [l2, l1]
      · rw [ArcState.run] at d2 ⊢
        simp only [List.foldl_cons]
        rw [d2, d1]
      · simp only [ArcState.validRun, Bool.and_eq_true, decide_eq_true_eq]
        exact ⟨hpos, v2⟩

/-- Cloning steps alone add exactly their number to the reference count. -/
theorem ArcState.run_replicate_clone {W : Type} (s : ArcState W) (n : Nat) :
    (ArcState.run s (List.replicate n ArcOp.clone)).strong = s.strong + n := by
  induction n generalizing s with
  | zero => rfl
  | succ n ih =>
      rw [List.replicate_succ]
      show (ArcState.run (s.step ArcOp.clone) (List.replicate n ArcOp.clone)).strong = _
      rw [ih]
      show s.strong + 1 + n = s.strong + (n + 1)
      omega

/-- A concrete stub window-binding over `Nat`, used to instantiate the
generic theorems at a concrete input. -/
def stubSource : WindowTrait Nat where
  window_handle := fun n => Except.ok ⟨n⟩
  display_handle := fun n => Except.ok ⟨n + 1⟩

/-- A concrete capsule over the stub window-binding. -/
def stubCapsule : RawHandleWrapper Nat :=
  { inst := stubSource, window := Arc.new 5 }

/-- C1: for every underlying window-source value wrapped in a capsule,
`window_handle` (resp. `display_handle`) on the thread-gated accessor
obtained from that capsule returns exactly the value returned by the
underlying window-source's own operation, unmodified (pass-through
identity), both for an arbitrary capsule and through the full
holder-to-accessor pipeline. -/
theorem handle_pass_through_identity (W : Type) (inst : WindowTrait W) (r : W)
    (c : RawHandleWrapper W) :
    (RawHandleWrapper.get_handle c).window_handle
        = c.inst.window_handle c.window.value ∧
    (RawHandleWrapper.get_handle c).display_handle
        = c.inst.display_handle c.window.value ∧
    Except.map (fun k => (RawHandleWrapper.get_handle k).window_handle)
        (RawHandleWrapper.new inst (WindowWrapper.new r))
      = Except.ok (inst.window_handle r) ∧
    Except.map (fun k => (RawHandleWrapper.get_handle k).display_handle)
        (RawHandleWrapper.new inst (WindowWrapper.new r))
      = Except.ok (inst.display_handle r) :=
  ⟨rfl, rfl, rfl, rfl⟩

/-- C2: for every accessor, `window_handle` and `display_handle` return
`Except.error e` if and only if the underlying window-source's
corresponding operation returns that error, and the result is propagated
to the caller untouched (the accessor operation is literally the
underlying operation's result; being a total Lean function, it cannot
panic). -/
theorem handle_error_propagation (W : Type)
    (a : ThreadLockedRawWindowHandleWrapper W) (e : HandleError) :
    (a.window_handle = Except.error e
        ↔ a.raw.inst.window_handle a.raw.window.value = Except.error e) ∧
    (a.display_handle = Except.error e
        ↔ a.raw.inst.display_handle a.raw.window.value = Except.error e) ∧
    a.window_handle = a.raw.inst.window_handle a.raw.window.value ∧
    a.display_handle = a.raw.inst.display_handle a.raw.window.value :=
  ⟨Iff.rfl, Iff.rfl, rfl, rfl⟩

/-- C3: constructing a capsule from a resource holder returns an error
only if the underlying binding reports a failure (vacuously so: it never
returns an error), and otherwise — that is, always — it succeeds. -/
theorem capsule_creation_error_policy (W : Type) (inst : WindowTrait W)
    (hw : WindowWrapper W) :
    (∀ e : HandleError, RawHandleWrapper.new inst hw ≠ Except.error e) ∧
    ∃ c, RawHandleWrapper.new inst hw = Except.ok c :=
  ⟨fun _ h => Except.noConfusion h, ⟨_, rfl⟩⟩

/-- C4: over the reference-count machine, after any valid sequence of
atomic clone/drop/read steps starting from one live reference, the
destructor has run at most once; while any clone still exists the
resource is intact (value unchanged) and the destructor has not run; and
once the last clone is dropped the destructor has run exactly once. -/
theorem resource_destroyed_exactly_once (W : Type) (w : W) (ops : List ArcOp)
    (hv : ArcState.validRun (ArcState.new w) ops = true) :
    (ArcState.run (ArcState.new w) ops).drops ≤ 1 ∧
    (0 < (ArcState.run (ArcState.new w) ops).strong →
      (ArcState.run (ArcState.new w) ops).drops = 0 ∧
      (ArcState.run (ArcState.new w) ops).live = some w) ∧
    ((ArcState.run (ArcState.new w) ops).strong = 0 →
      (ArcState.run (ArcState.new w) ops).drops = 1 ∧
      (ArcState.run (ArcState.new w) ops).live = none) := by
  have hinv := ArcState.inv_run ops (ArcState.inv_new w) hv
  rcases hinv with ⟨h1, h2, h3⟩ | ⟨h1, h2, h3⟩
  · exact ⟨by omega, fun _ => ⟨h3, h2⟩, fun h0 => absurd h1 (by omega)⟩
  · exact ⟨by omega, fun hp => absurd hp (by omega), fun _ => ⟨h3, h2⟩⟩

theorem resource_destroyed_exactly_once_witness :
    ArcState.validRun (ArcState.new (0 : Nat))
        [ArcOp.clone, ArcOp.clone, ArcOp.drop, ArcOp.drop, ArcOp.drop] = true ∧
    ((ArcState.run (ArcState.new (0 : Nat))
        [ArcOp.clone, ArcOp.clone, ArcOp.drop, ArcOp.drop, ArcOp.drop]).drops ≤ 1 ∧
    (0 < (ArcState.run (ArcState.new (0 : Nat))
        [ArcOp.clone, ArcOp.clone, ArcOp.drop, ArcOp.drop, ArcOp.drop]).strong →
      (ArcState.run (ArcState.new (0 : Nat))
        [ArcOp.clone, ArcOp.clone, ArcOp.drop, ArcOp.drop, ArcOp.drop]).drops = 0 ∧
      (ArcState.run (ArcState.new (0 : Nat))
        [ArcOp.clone, ArcOp.clone, ArcOp.drop, ArcOp.drop, ArcOp.drop]).live = some 0) ∧
    ((ArcState.run (ArcState.new (0 : Nat))
        [ArcOp.clone, ArcOp.clone, ArcOp.drop, ArcOp.drop, ArcOp.drop]).strong = 0 →
      (ArcState.run (ArcState.new (0 : Nat))
        [ArcOp.clone, ArcOp.clone, ArcOp.drop, ArcOp.drop, ArcOp.drop]).drops = 1 ∧
      (ArcState.run (ArcState.new (0 : Nat))
        [ArcOp.clone, ArcOp.clone, ArcOp.drop, ArcOp.drop, ArcOp.drop]).live = none)) :=
  ⟨by decide, resource_destroyed_exactly_once Nat 0
    [ArcOp.clone, ArcOp.clone, ArcOp.drop, ArcOp.drop, ArcOp.drop] (by decide)⟩

/-- C5: `get_handle` always succeeds: for every capsule it returns the
thread-gated accessor wrapping a clone of the capsule (equal to the
capsule itself at the value level); its return type has no error case and
its body has no failure branch. -/
theorem get_handle_always_succeeds (W : Type) (c : RawHandleWrapper W) :
    RawHandleWrapper.get_handle c = ThreadLockedRawWindowHandleWrapper.mk c :=
  rfl

/-- C6: dereferencing the holder returned by `WindowWrapper.new r` yields
exactly `r`; both operations are total functions with no absent-value
case. -/
theorem holder_round_trip (W : Type) (r : W) :
    (WindowWrapper.new r).deref = r :=
  rfl

/-- C7: a thread-gated accessor wraps exactly one capsule, held by value,
and is exactly the image of that unique capsule under the gated-access
operation: `get_handle` is a bijection onto the accessor type. -/
theorem accessor_wraps_unique_capsule (W : Type)
    (a : ThreadLockedRawWindowHandleWrapper W) :
    a = ThreadLockedRawWindowHandleWrapper.mk a.raw ∧
    ∃! c : RawHandleWrapper W, RawHandleWrapper.get_handle c = a := by
  refine ⟨rfl, a.raw, rfl, fun c hc => ?_⟩
  exact congrArg ThreadLockedRawWindowHandleWrapper.raw hc

/-- C8: no operation of the core mutates the wrapped resource or any
wrapper: over the machine, any sequence of non-dropping atomic steps
(clones from capsule creation, capsule clone or gated access, plus the
read-only dereference and handle calls) leaves the resource alive,
unchanged and never destroyed; at the value level, dereference returns
the stored resource, cloning a capsule returns it unchanged, the accessor
holds the capsule unchanged, and the handle operations are pure reads of
the underlying source. -/
theorem operations_never_mutate (W : Type) (r : W) (c : RawHandleWrapper W)
    (ops : List ArcOp) (hops : ArcOp.drop ∉ ops) :
    (ArcState.run (ArcState.new r) ops).live = some r ∧
    (ArcState.run (ArcState.new r) ops).drops = 0 ∧
    (WindowWrapper.new r).deref = r ∧
    RawHandleWrapper.clone c = c ∧
    (RawHandleWrapper.get_handle c).raw = c ∧
    (RawHandleWrapper.get_handle c).window_handle
      = c.inst.window_handle c.window.value ∧
    (RawHandleWrapper.get_handle c).display_handle
      = c.inst.display_handle c.window.value := by
  obtain ⟨l, d, _, _⟩ :=
    @ArcState.run_no_drop W (ArcState.new r) ops hops Nat.one_pos
  exact ⟨l, d, rfl, rfl, rfl, rfl, rfl⟩

theorem operations_never_mutate_witness :
    ArcOp.drop ∉ [ArcOp.clone, ArcOp.deref, ArcOp.windowHandle] ∧
    ((ArcState.run (ArcState.new (5 : Nat))
        [ArcOp.clone, ArcOp.deref, ArcOp.windowHandle]).live = some 5 ∧
    (ArcState.run (ArcState.new (5 : Nat))
        [ArcOp.clone, ArcOp.deref, ArcOp.windowHandle]).drops = 0 ∧
    (WindowWrapper.new (5 : Nat)).deref = 5 ∧
    RawHandleWrapper.clone stubCapsule = stubCapsule ∧
    (RawHandleWrapper.get_handle stubCapsule).raw = stubCapsule ∧
    (RawHandleWrapper.get_handle stubCapsule).window_handle
      = stubCapsule.inst.window_handle stubCapsule.window.value ∧
    (RawHandleWrapper.get_handle stubCapsule).display_handle
      = stubCapsule.inst.display_handle stubCapsule.window.value) :=
  ⟨by decide, operations_never_mutate Nat 5 stubCapsule
    [ArcOp.clone, ArcOp.deref, ArcOp.windowHandle] (by decide)⟩

/-- C9: `RawHandleWrapper.new` never returns an error: for every holder
over any window-source type it unconditionally returns `Except.ok` of the
capsule holding a clone of the shared reference, so the error branch is
unreachable. -/
theorem capsule_creation_never_fails (W : Type) (inst : WindowTrait W)
    (hw : WindowWrapper W) :
    RawHandleWrapper.new inst hw
        = Except.ok { inst := inst, window := hw.reference } ∧
    ∀ e : HandleError, RawHandleWrapper.new inst hw ≠ Except.error e :=
  ⟨rfl, fun _ h => Except.noConfusion h⟩

/-- C10: requesting gated access neither consumes nor alters the capsule:
the accessor holds its own clone (equal to the original), the original
capsule remains usable (a second gated access yields the same accessor),
and on the machine any number `n` of gated-access clones is a valid run
that leaves the resource alive with `n` additional references, so
arbitrarily many accessors coexist. -/
theorem get_handle_preserves_capsule (W : Type) (c : RawHandleWrapper W)
    (w : W) (n : Nat) :
    RawHandleWrapper.clone c = c ∧
    RawHandleWrapper.get_handle c = ThreadLockedRawWindowHandleWrapper.mk c ∧
    RawHandleWrapper.get_handle (RawHandleWrapper.get_handle c).raw
      = ThreadLockedRawWindowHandleWrapper.mk c ∧
    ArcState.validRun (ArcState.new w) (List.replicate n ArcOp.clone) = true ∧
    (ArcState.run (ArcState.new w) (List.replicate n ArcOp.clone)).strong
      = 1 + n ∧
    (ArcState.run (ArcState.new w) (List.replicate n ArcOp.clone)).live
      = some w := by
  have hnd : ArcOp.drop ∉ List.replicate n ArcOp.clone := by
    simp [List.mem_replicate]
  obtain ⟨l, _, _, v⟩ :=
    @ArcState.run_no_drop W (ArcState.new w) (List.replicate n ArcOp.clone) hnd
      Nat.one_pos
  exact ⟨rfl, rfl, rfl, v, ArcState.run_replicate_clone (ArcState.new w) n, l⟩

end RawHandleSpec
